import Mathlib

/-!
Verification of the slot-availability engine and the pending-update gate of
the medi_exp frontend.

The definitions below are a shallow embedding of
src/frontend/src/app/doctor-dashboard/components/ScheduleCalendar.tsx
(functions formatTime, parseTime12to24, generateTimeSlots) and of the
doctor-profile page (handleSubmit and its pending-update gating).

Modelling conventions:
 - JavaScript strings are Lean String, machine numbers are Nat or Int.
 - The while loop of generateTimeSlots is modelled in two stages, a faithful
   loop fission of the source: slotStates enumerates the successive
   (currentHour, currentMin) states of the loop, and mkSlot performs the loop
   body's slot construction for one state.  Because the loop need not
   terminate (the slot duration may be negative), slotStates is written with
   explicit fuel and returns none exactly when the fuel runs out while the
   loop guard still holds; a result of some l means the source loop
   terminates with the slots l.  generateTimeSlots supplies fuel that is
   proved sufficient whenever the duration is positive.
 - Time strings for day start and end are parsed with parseHM, modelling
   the source's split(":").map(Number) on the "HH:MM" shapes of the data
   model; shapes whose components are not plain numerals make the JS loop
   guard compare against NaN and produce no slots, modelled by the none
   branch of parseHM.
-/

namespace MediExp

/-- JS String.prototype.padStart(2, "0"): left-pad a string to length 2
with the character 0. -/
def padStart2 (s : String) : String :=
  if s.length < 2 then String.mk (List.replicate (2 - s.length) '0') ++ s else s

/-- Source formatTime (ScheduleCalendar.tsx lines 55-60): convert a 24-hour
time to 12-hour "hh:mm AM/PM" form.  The source receives the string
"HH:MM" and re-splits it into the two numbers; its only call site passes a
string rendered from the loop counters, so we pass the two components
directly.  On the reachable (nonnegative) values Lean's Int.emod agrees
with the JS remainder operator. -/
def formatTime (hours minutes : Int) : String :=
  let period := if hours ≥ 12 then "PM" else "AM"
  let hours12 := if hours % 12 = 0 then (12 : Int) else hours % 12
  padStart2 (toString hours12) ++ ":" ++ padStart2 (toString minutes) ++ " " ++ period

/-- Numeric value of a decimal digit character. -/
def digitVal (c : Char) : Nat := c.toNat - 48

/-- Recognize the (AM|PM) alternative of the source regex, case-insensitive
(flag i), returning the marker uppercased as match[3].toUpperCase() does. -/
def readAmPm : List Char → Option String
  | c1 :: c2 :: _ =>
    if (c1 = 'A' ∨ c1 = 'a') ∧ (c2 = 'M' ∨ c2 = 'm') then some "AM"
    else if (c1 = 'P' ∨ c1 = 'p') ∧ (c2 = 'M' ∨ c2 = 'm') then some "PM"
    else none
  | _ => none

/-- Skip the whitespace matched by the \s* of the source regex. -/
def skipWs : List Char → List Char
  | [] => []
  | c :: rest => if c.isWhitespace then skipWs rest else c :: rest

/-- Try to match the source regex (\d{1,2}):(\d{2})\s*(AM|PM)/i at the head
of the character list, greedy on the one-or-two-digit hour group exactly as
the regex engine is: two digits are tried before one.  Returns the hour
value (parseInt of group 1), the two-character minute group verbatim, and
the uppercased marker. -/
def matchTimeAt (l : List Char) : Option (Nat × String × String) :=
  (match l with
   | d1 :: d2 :: ':' :: m1 :: m2 :: rest =>
     if d1.isDigit ∧ d2.isDigit ∧ m1.isDigit ∧ m2.isDigit then
       (readAmPm (skipWs rest)).map
         (fun p => (10 * digitVal d1 + digitVal d2, String.mk [m1, m2], p))
     else none
   | _ => none).orElse
  (fun _ =>
   match l with
   | d1 :: ':' :: m1 :: m2 :: rest =>
     if d1.isDigit ∧ m1.isDigit ∧ m2.isDigit then
       (readAmPm (skipWs rest)).map
         (fun p => (digitVal d1, String.mk [m1, m2], p))
     else none
   | _ => none)

/-- Scan for the leftmost match of the source regex, as String.prototype.match
does. -/
def findTimeMatch : List Char → Option (Nat × String × String)
  | [] => none
  | c :: rest => (matchTimeAt (c :: rest)).orElse (fun _ => findTimeMatch rest)

/-- Source parseTime12to24 (ScheduleCalendar.tsx lines 63-72): parse a
12-hour time to 24-hour "HH:MM" form; strings the regex does not match
normalize to "00:00". -/
def parseTime12to24 (time12 : String) : String :=
  match findTimeMatch time12.data with
  | none => "00:00"
  | some (h, mins, period) =>
    let hours := if period = "PM" ∧ h ≠ 12 then h + 12 else h
    let hours := if period = "AM" ∧ hours = 12 then 0 else hours
    padStart2 (toString hours) ++ ":" ++ mins

/-- JS String.prototype.includes on character lists (case-sensitive
substring containment). -/
def hasInfixCh (sub : List Char) : List Char → Bool
  | [] => sub.isPrefixOf []
  | c :: t => sub.isPrefixOf (c :: t) || hasInfixCh sub t

/-- JS String.prototype.includes, case-sensitive. -/
def strIncludes (s sub : String) : Bool := hasInfixCh sub.data s.data

/-- Appointment record as used by the calendar (fields date, time,
patientName, id of the api Appointment type).  A missing patientName and an
empty one are both JS-falsy at the single use site, so both are modelled by
the empty string. -/
structure Appointment where
  date : String
  time : String
  patientName : String
  id : String
deriving DecidableEq, Repr

/-- Normalization applied to an appointment time inside the loop body
(ScheduleCalendar.tsx lines 106-109): strings containing the uppercase
marker AM or PM go through parseTime12to24, others are used as-is. -/
def normalizeApptTime (t : String) : String :=
  if strIncludes t "AM" || strIncludes t "PM" then parseTime12to24 t else t

/-- One day of the weekly schedule template.  start and stop are the source
fields start and end (end is a Lean keyword); none models an absent field,
and the source's JS-falsiness defaulting also treats the empty string as
absent. -/
structure DaySetting where
  enabled : Bool
  start : Option String
  stop : Option String
deriving DecidableEq, Repr

/-- The doctor's schedule: weekday name (lowercase English) to optional
DaySetting, plus the shared slot duration (absent modelled as none). -/
structure Schedule where
  weeklySchedule : String → Option DaySetting
  slotDuration : Option Int

/-- Output slot record (ScheduleCalendar.tsx lines 7-12). -/
structure TimeSlot where
  time : String
  available : Bool
  patientName : Option String := none
  appointmentId : Option String := none
deriving DecidableEq, Repr

/-- Day start time with the JS defaulting of line 86: daySchedule.start
when truthy, otherwise 09:00. -/
def effStart (ds : DaySetting) : String :=
  match ds.start with
  | none => "09:00"
  | some s => if s = "" then "09:00" else s

/-- Day end time with the JS defaulting of line 87: daySchedule.end when
truthy, otherwise 17:00. -/
def effEnd (ds : DaySetting) : String :=
  match ds.stop with
  | none => "17:00"
  | some s => if s = "" then "17:00" else s

/-- Effective slot duration with the JS defaulting of line 88: absent and 0
are falsy and give 30; every other value, negative ones included, is
kept. -/
def effDuration (sd : Option Int) : Int :=
  match sd with
  | none => 30
  | some d => if d = 0 then 30 else d

/-- JS String.prototype.split on a single separator character, over the
character list. -/
def splitCh (sep : Char) : List Char → List (List Char)
  | [] => [[]]
  | c :: rest =>
    let r := splitCh sep rest
    if c = sep then [] :: r
    else
      match r with
      | [] => [[c]]
      | h :: t => (c :: h) :: t

/-- Numeric value of a nonempty all-digit character list, none otherwise
(the shapes JS Number turns into NaN, or into out-of-model values). -/
def digitsToNat? (l : List Char) : Option Nat :=
  if l ≠ [] ∧ l.all Char.isDigit then
    some (l.foldl (fun acc c => 10 * acc + digitVal c) 0)
  else none

/-- Parsing of a day start or end string by the source's colon split with
numeric conversion (lines 91-92), restricted to the "HH:MM" shapes of the
data model: exactly two components, both plain numerals.  Other shapes
yield NaN components in JS, which the loop guard compares against so that
no slot is produced; they are modelled by none. -/
def parseHM (s : String) : Option (Nat × Nat) :=
  match splitCh ':' s.data with
  | [hs, ms] =>
    match digitsToNat? hs, digitsToNat? ms with
    | some hv, some mv => some (hv, mv)
    | _, _ => none
  | _ => none

/-- The while-loop guard of generateTimeSlots (line 98):
currentHour < endHour or (currentHour === endHour and currentMin < endMin). -/
def slotGuard (endHour endMin : Nat) (h m : Int) : Bool :=
  decide (h < (endHour : Int)) || ((h == (endHour : Int)) && decide (m < (endMin : Int)))

/-- The loop-footer state update (lines 125-129): advance currentMin by the
slot duration and roll minute overflow into the hour.  The division only
happens on values that are at least 60, where Lean's floor division agrees
with JS Math.floor and emod with the JS remainder. -/
def slotStep (d : Int) (h m : Int) : Int × Int :=
  let m2 := m + d
  if m2 ≥ 60 then (h + m2 / 60, m2 % 60) else (h, m2)

/-- The template literal of line 99 producing the 24-hour slot label. -/
def time24Str (h m : Int) : String :=
  padStart2 (toString h) ++ ":" ++ padStart2 (toString m)

/-- The loop body of generateTimeSlots for one state (lines 99-122): build
the TimeSlot for the slot starting at hour h minute m, matching it against
the appointments of the queried date. -/
def mkSlot (appointments : List Appointment) (date : String) (h m : Int) : TimeSlot :=
  let time24 := time24Str h m
  let time12 := formatTime h m
  let dateAppointments := appointments.filter (fun a => a.date == date)
  match dateAppointments.find? (fun a => normalizeApptTime a.time == time24) with
  | some a =>
    { time := time12, available := false,
      patientName := some (if a.patientName = "" then "Patient" else a.patientName),
      appointmentId := some a.id }
  | none => { time := time12, available := true }

/-- The while loop of lines 95-130 as a state enumeration with fuel: the
list of successive (currentHour, currentMin) states for which the guard
holds, or none when the fuel is exhausted with the guard still true (the
source loop does not terminate within that many iterations). -/
def slotStates (endHour endMin : Nat) (d : Int) : Nat → Int → Int → Option (List (Int × Int))
  | fuel, h, m =>
    if slotGuard endHour endMin h m then
      match fuel with
      | 0 => none
      | fuel' + 1 =>
        let s2 := slotStep d h m
        (slotStates endHour endMin d fuel' s2.1 s2.2).map (fun l => (h, m) :: l)
    else some []

/-- Source generateTimeSlots (ScheduleCalendar.tsx lines 75-133).  The
weekday resolution new Date(date).toLocaleDateString of lines 78-79 is
environment dependent and passed as the oracle resolveDay.  The component
returns [] while the schedule is still null; we model loaded schedules.
The fuel endHour * 60 + endMin + 100 is proved sufficient for every
positive duration, so some l means the source loop terminates with l and
none means it runs forever. -/
def generateTimeSlots (resolveDay : String → String) (schedule : Schedule)
    (appointments : List Appointment) (date : String) : Option (List TimeSlot) :=
  let dayName := resolveDay date
  match schedule.weeklySchedule dayName with
  | none => some []
  | some daySchedule =>
    if daySchedule.enabled then
      let startTime := effStart daySchedule
      let endTime := effEnd daySchedule
      let slotDuration := effDuration schedule.slotDuration
      match parseHM startTime, parseHM endTime with
      | some (startHour, startMin), some (endHour, endMin) =>
        (slotStates endHour endMin slotDuration (endHour * 60 + endMin + 100)
            (startHour : Int) (startMin : Int)).map
          (fun states => states.map (fun p => mkSlot appointments date p.1 p.2))
      | _, _ => some []
    else some []

/-- Modelled from the spec: the expected slot start times in minutes after
midnight, every multiple of d starting at startT that is strictly below
endT (half-open interval), in ascending order. -/
def specTimes (startT endT d : Nat) : List Nat :=
  (List.range ((endT - startT + d - 1) / d)).map (fun k => startT + k * d)

/-- Modelled from the spec: render a time of day (minutes after midnight)
in 12-hour "hh:mm AM/PM" form with zero-padded hour and minute. -/
def spec12h (t : Nat) : String :=
  let h := t / 60
  let m := t % 60
  padStart2 (toString (if h % 12 = 0 then 12 else h % 12)) ++ ":" ++
    padStart2 (toString m) ++ " " ++ (if h ≥ 12 then "PM" else "AM")

/-- Left inverse of spec12h on times below 24:00, used to show that the
12-hour rendering is injective there. -/
def parse12val (s : String) : Nat :=
  match s.data with
  | [a, b, ':', c, d, ' ', p, 'M'] =>
    let h12 := 10 * digitVal a + digitVal b
    let mnu := 10 * digitVal c + digitVal d
    let h24 := if p = 'P' then (if h12 = 12 then 12 else h12 + 12)
               else (if h12 = 12 then 0 else h12)
    h24 * 60 + mnu
  | _ => 0

/-!
Pending-update gate of the doctor profile page (src/unnamed/part_000).
The component state relevant to the gate is the pendingUpdate record, the
banner message and the isSaving flag; the transitions touching them are
the submit handler (lines 100-130) and the arrival of an externally
fetched pending-update record (lines 74-81, the getPendingUpdate answer,
whose content is controlled by the admin approve-profile and
reject-profile endpoints used by the admin dashboard).
-/

/-- Severity of a surfaced message (part_000 lines 28-31). -/
inductive MsgType
  | success
  | error
  | warning
deriving DecidableEq, Repr

/-- Message surfaced by the profile page. -/
structure Message where
  type : MsgType
  text : String
deriving DecidableEq, Repr

/-- Editable profile fields (part_000 lines 10-16). -/
structure ProfileData where
  name : String
  specialty : String
  location : String
  experience : Int
  image : String
deriving DecidableEq, Repr

/-- Pending-update record (part_000 lines 18-22). -/
structure PendingUpdate where
  hasPendingUpdate : Bool
  pendingData : Option ProfileData := none
  requestedAt : Option String := none
deriving DecidableEq, Repr

/-- Profile-page state relevant to the pending-update gate. -/
structure PageState where
  isSaving : Bool
  message : Option Message
  pendingUpdate : PendingUpdate
deriving DecidableEq, Repr

/-- Result of the requestProfileUpdate network call, when it is made. -/
inductive SubmitOutcome
  | ok
  | failed
deriving DecidableEq, Repr

/-- Warning surfaced when submitting while an update is pending
(part_000 lines 104-107). -/
def pendingWarning : Message :=
  { type := MsgType.warning,
    text := "You already have a pending profile update awaiting admin approval." }

/-- Success message of part_000 lines 116-119. -/
def submittedMsg : Message :=
  { type := MsgType.success,
    text := "Profile update request submitted! Awaiting admin approval." }

/-- Error message of part_000 line 126. -/
def submitFailedMsg : Message :=
  { type := MsgType.error,
    text := "Failed to submit profile update. Please try again." }

/-- Source handleSubmit (part_000 lines 100-130).  The returned Bool
records whether the requestProfileUpdate network call was made; outcome is
the answer of that call when it happens (ignored otherwise). -/
def handleSubmit (s : PageState) (form : ProfileData) (outcome : SubmitOutcome)
    (now : String) : PageState × Bool :=
  if s.pendingUpdate.hasPendingUpdate then
    ({ s with message := some pendingWarning }, false)
  else
    match outcome with
    | SubmitOutcome.ok =>
      ({ s with
          isSaving := false
          message := some submittedMsg
          pendingUpdate :=
            { hasPendingUpdate := true
              pendingData := some form
              requestedAt := some now } }, true)
    | SubmitOutcome.failed =>
      ({ s with
          isSaving := false
          message := some submitFailedMsg }, true)

/-- Events that can change the gate-relevant state: a submit attempt, or
the arrival of an externally fetched pending-update record (the only way
server-side admin approve or reject decisions reach the client). -/
inductive PageEvent
  | submit (form : ProfileData) (outcome : SubmitOutcome) (now : String)
  | pendingFetched (p : PendingUpdate)
deriving DecidableEq, Repr

/-- Transition function of the profile page on gate-relevant events; the
Bool records whether a profile-update network request was sent. -/
def pageStep (s : PageState) (e : PageEvent) : PageState × Bool :=
  match e with
  | PageEvent.submit f o n => handleSubmit s f o n
  | PageEvent.pendingFetched p => ({ s with pendingUpdate := p }, false)

/-! Concrete fixtures used to instantiate the theorems below. -/

/-- Weekday oracle resolving every date to monday. -/
def mondayResolve : String → String := fun _ => "monday"

/-- Enabled monday 09:00 to 10:00. -/
def sampleDay : DaySetting := { enabled := true, start := some "09:00", stop := some "10:00" }

/-- Schedule with only monday enabled, 30-minute slots. -/
def sampleSchedule : Schedule :=
  { weeklySchedule := fun s => if s = "monday" then some sampleDay else none,
    slotDuration := some 30 }

/-- Enabled monday 09:00 to 17:00. -/
def fullDay : DaySetting := { enabled := true, start := some "09:00", stop := some "17:00" }

/-- Schedule with a negative slot duration. -/
def negSchedule : Schedule :=
  { weeklySchedule := fun s => if s = "monday" then some fullDay else none,
    slotDuration := some (-15) }

/-- Schedule with a zero slot duration and a day with absent start and end. -/
def zeroDurSchedule : Schedule :=
  { weeklySchedule := fun s =>
      if s = "monday" then some { enabled := true, start := none, stop := none } else none,
    slotDuration := some 0 }

/-- Monday present but disabled. -/
def disabledDay : DaySetting := { enabled := false, start := some "09:00", stop := some "17:00" }

/-- Schedule whose only configured day is disabled. -/
def disabledSchedule : Schedule :=
  { weeklySchedule := fun s => if s = "monday" then some disabledDay else none,
    slotDuration := some 30 }

/-- Appointment with an empty patient name at 09:30 in 12-hour form. -/
def apptA : Appointment := { date := "2025-01-06", time := "09:30 AM", patientName := "", id := "a1" }

/-- Appointment at 14:00 in 24-hour form. -/
def apptB : Appointment :=
  { date := "2025-01-06", time := "14:00", patientName := "Bob", id := "b1" }

/-- Second appointment also at 09:30, later in the list than apptA. -/
def apptC : Appointment :=
  { date := "2025-01-06", time := "9:30 AM", patientName := "Carol", id := "c1" }

/-- Blank profile form data. -/
def emptyProfile : ProfileData :=
  { name := "", specialty := "", location := "", experience := 0, image := "" }

/-- Page state with a pending profile update. -/
def pendingState : PageState :=
  { isSaving := false, message := none,
    pendingUpdate := { hasPendingUpdate := true, pendingData := none, requestedAt := none } }

/-! Helper lemmas about the loop arithmetic and the expected slot times. -/

lemma toString_natCast_int (n : Nat) : toString ((n : Int)) = toString n := rfl

lemma slotGuard_true_iff (eh em h m : Nat) (hm : m < 60) (hem : em < 60) :
    slotGuard eh em (h : Int) (m : Int) = true ↔ h * 60 + m < eh * 60 + em := by
  simp only [slotGuard, Bool.or_eq_true, Bool.and_eq_true, decide_eq_true_eq, beq_iff_eq]
  constructor
  · rintro (hlt | ⟨heq, hlt⟩) <;> omega
  · intro hlt
    omega

lemma slotGuard_false_iff (eh em h m : Nat) (hm : m < 60) (hem : em < 60) :
    slotGuard eh em (h : Int) (m : Int) = false ↔ eh * 60 + em ≤ h * 60 + m := by
  rw [← Bool.not_eq_true, not_iff_comm, slotGuard_true_iff eh em h m hm hem]
  omega

lemma slotStep_natCast (d h m : Nat) :
    slotStep (d : Int) (h : Int) (m : Int) =
      (((h + (m + d) / 60 : Nat) : Int), (((m + d) % 60 : Nat) : Int)) := by
  simp only [slotStep]
  split <;> (refine Prod.ext ?_ ?_ <;> simp only [] <;> push_cast <;> omega)

lemma specTimes_eq_nil (s e d : Nat) (he : e ≤ s) : specTimes s e d = [] := by
  have hz : (e - s + d - 1) / d = 0 := by
    rcases Nat.eq_zero_or_pos d with hd | hd
    · simp [hd]
    · exact Nat.div_eq_of_lt (by omega)
  simp [specTimes, hz]

lemma specTimes_cons (s e d : Nat) (hd : 1 ≤ d) (hse : s < e) :
    specTimes s e d = s :: specTimes (s + d) e d := by
  have hd0 : 0 < d := hd
  have hn : (e - s + d - 1) / d = (e - s - 1) / d + 1 := by
    have h1 : e - s + d - 1 = (e - s - 1) + d := by omega
    rw [h1, Nat.add_div_right _ hd0]
  have hn2 : (e - (s + d) + d - 1) / d = (e - s - 1) / d := by
    rcases le_or_lt d (e - s) with hc | hc
    · have h2 : e - (s + d) + d - 1 = e - s - 1 := by omega
      rw [h2]
    · have h2 : e - (s + d) = 0 := by omega
      rw [h2]
      rw [Nat.div_eq_of_lt (by omega), Nat.div_eq_of_lt (by omega)]
  simp only [specTimes, hn, hn2, List.range_succ_eq_map, List.map_cons, List.map_map]
  refine congrArg₂ _ (by omega) ?_
  refine List.map_congr_left ?_
  intro k _
  simp only [Function.comp_apply]
  rw [Nat.succ_mul]
  ring

lemma specTimes_mem_lt (s e d : Nat) (hd : 1 ≤ d) :
    ∀ t ∈ specTimes s e d, s ≤ t ∧ t < e := by
  intro t ht
  simp only [specTimes, List.mem_map, List.mem_range] at ht
  obtain ⟨k, hk, rfl⟩ := ht
  have hd0 : 0 < d := hd
  constructor
  · omega
  · have hk1 : k + 1 ≤ (e - s + d - 1) / d := hk
    have hmul : (k + 1) * d ≤ e - s + d - 1 := (Nat.le_div_iff_mul_le hd0).mp hk1
    rw [Nat.succ_mul] at hmul
    have hkd : 0 ≤ k * d := Nat.zero_le _
    generalize k * d = K at hmul ⊢
    omega

lemma specTimes_pairwise (s e d : Nat) (hd : 1 ≤ d) :
    (specTimes s e d).Pairwise (· < ·) := by
  have hr : (List.range ((e - s + d - 1) / d)).Pairwise (· < ·) := List.pairwise_lt_range _
  refine List.Pairwise.map _ ?_ hr
  intro a b hab
  have : a * d < b * d := (Nat.mul_lt_mul_right hd).mpr hab
  omega

/-- With a positive duration and enough fuel, the loop terminates and its
states are exactly the expected slot start times. -/
lemma slotStates_eq (eh em d : Nat) (hd : 1 ≤ d) (hem : em < 60) :
    ∀ (fuel h m : Nat), m < 60 → eh * 60 + em ≤ fuel + (h * 60 + m) →
      slotStates eh em (d : Int) fuel (h : Int) (m : Int) =
        some ((specTimes (h * 60 + m) (eh * 60 + em) d).map
          (fun t => (((t / 60 : Nat) : Int), ((t % 60 : Nat) : Int)))) := by
  intro fuel
  induction fuel with
  | zero =>
    intro h m hm hfuel
    rw [slotStates]
    rw [(slotGuard_false_iff eh em h m hm hem).mpr (by omega)]
    rw [specTimes_eq_nil _ _ _ (by omega)]
    simp
  | succ fuel ih =>
    intro h m hm hfuel
    by_cases hcur : h * 60 + m < eh * 60 + em
    · rw [slotStates]
      rw [(slotGuard_true_iff eh em h m hm hem).mpr hcur]
      simp only [if_true, slotStep_natCast]
      have hnext : (h + (m + d) / 60) * 60 + (m + d) % 60 = h * 60 + m + d := by omega
      rw [ih (h + (m + d) / 60) ((m + d) % 60) (Nat.mod_lt _ (by omega)) (by omega)]
      rw [specTimes_cons _ _ _ hd hcur]
      simp only [Option.map_some, List.map_cons, hnext]
      have hh : (h * 60 + m) / 60 = h := by omega
      have hmm : (h * 60 + m) % 60 = m := by omega
      rw [hh, hmm]
      rfl
    · rw [slotStates]
      rw [(slotGuard_false_iff eh em h m hm hem).mpr (by omega)]
      rw [specTimes_eq_nil _ _ _ (by omega)]
      simp

lemma formatTime_natCast (h m : Nat) :
    formatTime (h : Int) (m : Int) =
      padStart2 (toString (if h % 12 = 0 then (12 : Nat) else h % 12)) ++ ":" ++
        padStart2 (toString m) ++ " " ++ (if h ≥ 12 then "PM" else "AM") := by
  unfold formatTime
  have hmod : ((h : Int) % 12) = ((h % 12 : Nat) : Int) := by omega
  rw [hmod]
  by_cases hz : h % 12 = 0 <;> by_cases hge : 12 ≤ h
  · rw [if_pos (show ((h % 12 : Nat) : Int) = 0 by omega),
      if_pos (show (h : Int) ≥ 12 by omega), if_pos hz, if_pos hge]
    rfl
  · rw [if_pos (show ((h % 12 : Nat) : Int) = 0 by omega),
      if_neg (show ¬((h : Int) ≥ 12) by omega), if_pos hz, if_neg hge]
    rfl
  · rw [if_neg (show ¬(((h % 12 : Nat) : Int) = 0) by omega),
      if_pos (show (h : Int) ≥ 12 by omega), if_neg hz, if_pos hge]
    rfl
  · rw [if_neg (show ¬(((h % 12 : Nat) : Int) = 0) by omega),
      if_neg (show ¬((h : Int) ≥ 12) by omega), if_neg hz, if_neg hge]
    rfl

lemma formatTime_eq_spec12h (t : Nat) :
    formatTime ((t / 60 : Nat) : Int) ((t % 60 : Nat) : Int) = spec12h t := by
  rw [formatTime_natCast]
  rfl

lemma mkSlot_time (appts : List Appointment) (date : String) (h m : Int) :
    (mkSlot appts date h m).time = formatTime h m := by
  simp only [mkSlot]
  split <;> rfl

lemma mkSlot_available (appts : List Appointment) (date : String) (h m : Int) :
    (mkSlot appts date h m).available = false ↔
      ((appts.filter (fun a => a.date == date)).find?
        (fun a => normalizeApptTime a.time == time24Str h m)).isSome := by
  simp only [mkSlot]
  split
  · next a ha => simp [ha]
  · next ha => simp [ha]

/-- Unfolding of generateTimeSlots on an enabled day with well-formed
bounds, for any duration. -/
lemma generateTimeSlots_unfold (resolve : String → String) (sched : Schedule)
    (appts : List Appointment) (date : String) (ds : DaySetting)
    (sh sm eh em : Nat)
    (hds : sched.weeklySchedule (resolve date) = some ds)
    (hen : ds.enabled = true)
    (hstart : parseHM (effStart ds) = some (sh, sm))
    (hend : parseHM (effEnd ds) = some (eh, em)) :
    generateTimeSlots resolve sched appts date =
      (slotStates eh em (effDuration sched.slotDuration) (eh * 60 + em + 100)
          ((sh : Nat) : Int) ((sm : Nat) : Int)).map
        (fun states => states.map (fun p => mkSlot appts date p.1 p.2)) := by
  simp only [generateTimeSlots, hds, hen, if_true, hstart, hend]

/-- With the day enabled, both bounds well-formed and a positive duration,
generateTimeSlots terminates and maps the loop body over the expected slot
start times. -/
lemma generateTimeSlots_eq (resolve : String → String) (sched : Schedule)
    (appts : List Appointment) (date : String) (ds : DaySetting)
    (sh sm eh em d : Nat)
    (hds : sched.weeklySchedule (resolve date) = some ds)
    (hen : ds.enabled = true)
    (hstart : parseHM (effStart ds) = some (sh, sm))
    (hend : parseHM (effEnd ds) = some (eh, em))
    (hdur : effDuration sched.slotDuration = (d : Int))
    (hd : 1 ≤ d) (hsm : sm < 60) (hem : em < 60) :
    generateTimeSlots resolve sched appts date =
      some ((specTimes (sh * 60 + sm) (eh * 60 + em) d).map
        (fun t => mkSlot appts date ((t / 60 : Nat) : Int) ((t % 60 : Nat) : Int))) := by
  simp only [generateTimeSlots, hds, hen, if_true, hstart, hend, hdur]
  rw [slotStates_eq eh em d hd hem (eh * 60 + em + 100) sh sm hsm (by omega)]
  simp [List.map_map, Function.comp]

/-! Injectivity of the 12-hour rendering on times of day, via the explicit
left inverse parse12val, established by decidable evaluation on four
six-hour chunks. -/

set_option maxRecDepth 2000 in
lemma parse12val_spec12h_chunk0 : ∀ t < 360, parse12val (spec12h t) = t := by decide

set_option maxRecDepth 2000 in
lemma parse12val_spec12h_chunk1 : ∀ t < 360, parse12val (spec12h (360 + t)) = 360 + t := by
  decide

set_option maxRecDepth 2000 in
lemma parse12val_spec12h_chunk2 : ∀ t < 360, parse12val (spec12h (720 + t)) = 720 + t := by
  decide

set_option maxRecDepth 2000 in
lemma parse12val_spec12h_chunk3 : ∀ t < 360, parse12val (spec12h (1080 + t)) = 1080 + t := by
  decide

lemma parse12val_spec12h (t : Nat) (ht : t < 1440) : parse12val (spec12h t) = t := by
  rcases lt_or_ge t 360 with h0 | h0
  · exact parse12val_spec12h_chunk0 t h0
  rcases lt_or_ge t 720 with h1 | h1
  · have := parse12val_spec12h_chunk1 (t - 360) (by omega)
    rwa [Nat.add_sub_cancel' h0] at this
  rcases lt_or_ge t 1080 with h2 | h2
  · have := parse12val_spec12h_chunk2 (t - 720) (by omega)
    rwa [Nat.add_sub_cancel' h1] at this
  · have := parse12val_spec12h_chunk3 (t - 1080) (by omega)
    rwa [Nat.add_sub_cancel' h2] at this

lemma spec12h_injOn (t1 t2 : Nat) (h1 : t1 < 1440) (h2 : t2 < 1440)
    (heq : spec12h t1 = spec12h t2) : t1 = t2 := by
  have := parse12val_spec12h t1 h1
  rw [heq, parse12val_spec12h t2 h2] at this
  omega

/-! Facts about find? over the date filter, used for occupancy claims. -/

lemma find?_filter_first (p q : Appointment → Bool) (l1 l2 : List Appointment)
    (a : Appointment) (hpa : p a = true) (hqa : q a = true)
    (hnone : ∀ b ∈ l1, ¬(p b = true ∧ q b = true)) :
    ((l1 ++ a :: l2).filter p).find? q = some a := by
  induction l1 with
  | nil =>
    simp only [List.nil_append, List.filter_cons, hpa, if_true, List.find?_cons, hqa]
  | cons b l1 ih =>
    have hb := hnone b (by simp)
    have ih2 := ih (fun c hc => hnone c (by simp [hc]))
    simp only [List.cons_append, List.filter_cons]
    by_cases hpb : p b = true
    · have hqb : q b = false := by
        rcases Bool.eq_false_or_eq_true (q b) with h | h
        · exact absurd ⟨hpb, h⟩ hb
        · exact h
      simp only [hpb, if_true, List.find?_cons, hqb]
      exact ih2
    · simp only [Bool.not_eq_true] at hpb
      simp only [hpb, Bool.false_eq_true, if_false]
      exact ih2

/-- C1: for every schedule whose resolved weekday is enabled (well-formed
HH:MM bounds, positive effective duration), generateTimeSlots returns the
sequence of slots whose start times are exactly start, start + d,
start + 2d, ... for duration d, covering every such time strictly below
end (half-open interval) and none at or past end, in ascending order, each
rendered in zero-padded 12-hour "hh:mm AM/PM" form; in particular
start at-or-after end yields the empty sequence, not an error. -/
theorem c1_slot_enumeration (resolve : String → String) (sched : Schedule)
    (appts : List Appointment) (date : String) (ds : DaySetting)
    (sh sm eh em d : Nat)
    (hds : sched.weeklySchedule (resolve date) = some ds)
    (hen : ds.enabled = true)
    (hstart : parseHM (effStart ds) = some (sh, sm))
    (hend : parseHM (effEnd ds) = some (eh, em))
    (hdur : effDuration sched.slotDuration = (d : Int))
    (hd : 1 ≤ d) (hsm : sm < 60) (hem : em < 60) :
    ∃ l, generateTimeSlots resolve sched appts date = some l ∧
      l.map (fun s => s.time) =
        (specTimes (sh * 60 + sm) (eh * 60 + em) d).map spec12h ∧
      (eh * 60 + em ≤ sh * 60 + sm → l = []) := by
  refine ⟨_, generateTimeSlots_eq resolve sched appts date ds sh sm eh em d
    hds hen hstart hend hdur hd hsm hem, ?_, ?_⟩
  · rw [List.map_map]
    refine List.map_congr_left ?_
    intro t _
    simp only [Function.comp_apply, mkSlot_time]
    exact formatTime_eq_spec12h t
  · intro hle
    rw [specTimes_eq_nil _ _ _ hle]
    rfl

/-- Witness for C1 on the schedule monday 09:00 to 10:00 with 30-minute
slots: the two slots 09:00 AM and 09:30 AM. -/
theorem c1_slot_enumeration_witness :
    parseHM (effStart sampleDay) = some (9, 0) ∧
    (∃ l, generateTimeSlots mondayResolve sampleSchedule [] "2025-01-06" = some l ∧
      l.map (fun s => s.time) = (specTimes (9 * 60 + 0) (10 * 60 + 0) 30).map spec12h ∧
      (10 * 60 + 0 ≤ 9 * 60 + 0 → l = [])) ∧
    (specTimes (9 * 60 + 0) (10 * 60 + 0) 30).map spec12h = ["09:00 AM", "09:30 AM"] :=
  ⟨by decide,
   c1_slot_enumeration mondayResolve sampleSchedule [] "2025-01-06" sampleDay
     9 0 10 0 30 (by decide) (by decide) (by decide) (by decide) (by decide)
     (by decide) (by decide) (by decide),
   by decide⟩

/-- C5: for every date whose resolved weekday has no DaySetting or a
disabled one, generateTimeSlots returns the empty sequence as a valid
non-error outcome (some [], distinguishable from the none that models
non-termination), for any appointments and duration. -/
theorem c5_disabled_day_empty (resolve : String → String) (sched : Schedule)
    (appts : List Appointment) (date : String)
    (hdis : ∀ ds, sched.weeklySchedule (resolve date) = some ds → ds.enabled = false) :
    generateTimeSlots resolve sched appts date = some [] ∧
      generateTimeSlots resolve sched appts date ≠ none := by
  have hmain : generateTimeSlots resolve sched appts date = some [] := by
    simp only [generateTimeSlots]
    cases hw : sched.weeklySchedule (resolve date) with
    | none => rfl
    | some ds => simp [hdis ds hw]
  exact ⟨hmain, by rw [hmain]; exact Option.some_ne_none _⟩

/-- Witness for C5 on a schedule whose only day is disabled. -/
theorem c5_disabled_day_empty_witness :
    (∀ ds, disabledSchedule.weeklySchedule (mondayResolve "2025-01-06") = some ds →
      ds.enabled = false) ∧
    generateTimeSlots mondayResolve disabledSchedule [apptA] "2025-01-06" = some [] ∧
      generateTimeSlots mondayResolve disabledSchedule [apptA] "2025-01-06" ≠ none :=
  ⟨by decide,
   c5_disabled_day_empty mondayResolve disabledSchedule [apptA] "2025-01-06" (by decide)⟩

/-- C6: for all valid inputs (enabled day, well-formed HH:MM bounds within
the day, positive duration), the returned slot sequence is strictly
ascending in time-of-day and contains no duplicate time strings. -/
theorem c6_ascending_no_duplicates (resolve : String → String) (sched : Schedule)
    (appts : List Appointment) (date : String) (ds : DaySetting)
    (sh sm eh em d : Nat)
    (hds : sched.weeklySchedule (resolve date) = some ds)
    (hen : ds.enabled = true)
    (hstart : parseHM (effStart ds) = some (sh, sm))
    (hend : parseHM (effEnd ds) = some (eh, em))
    (hdur : effDuration sched.slotDuration = (d : Int))
    (hd : 1 ≤ d) (hsm : sm < 60) (hem : em < 60)
    (hday : eh * 60 + em ≤ 1440) :
    ∃ l, generateTimeSlots resolve sched appts date = some l ∧
      l.map (fun s => s.time) =
        (specTimes (sh * 60 + sm) (eh * 60 + em) d).map spec12h ∧
      (specTimes (sh * 60 + sm) (eh * 60 + em) d).Pairwise (· < ·) ∧
      (l.map (fun s => s.time)).Nodup := by
  refine ⟨_, generateTimeSlots_eq resolve sched appts date ds sh sm eh em d
    hds hen hstart hend hdur hd hsm hem, ?_, specTimes_pairwise _ _ _ hd, ?_⟩
  · rw [List.map_map]
    refine List.map_congr_left ?_
    intro t _
    simp only [Function.comp_apply, mkSlot_time]
    exact formatTime_eq_spec12h t
  · have htimes : (List.map (fun p => mkSlot appts date ((p / 60 : Nat) : Int)
        ((p % 60 : Nat) : Int)) (specTimes (sh * 60 + sm) (eh * 60 + em) d)).map
          (fun s => s.time) =
        (specTimes (sh * 60 + sm) (eh * 60 + em) d).map spec12h := by
      rw [List.map_map]
      refine List.map_congr_left ?_
      intro t _
      simp only [Function.comp_apply, mkSlot_time]
      exact formatTime_eq_spec12h t
    rw [htimes]
    have hnodup : (specTimes (sh * 60 + sm) (eh * 60 + em) d).Nodup :=
      (specTimes_pairwise _ _ _ hd).imp Nat.ne_of_lt
    refine List.Nodup.map_on ?_ hnodup
    intro t1 ht1 t2 ht2 heq
    have hb1 := (specTimes_mem_lt _ _ _ hd t1 ht1).2
    have hb2 := (specTimes_mem_lt _ _ _ hd t2 ht2).2
    exact spec12h_injOn t1 t2 (by omega) (by omega) heq

/-- Witness for C6 on the schedule monday 09:00 to 10:00 with 30-minute
slots. -/
theorem c6_ascending_no_duplicates_witness :
    ∃ l, generateTimeSlots mondayResolve sampleSchedule [] "2025-01-06" = some l ∧
      l.map (fun s => s.time) = (specTimes (9 * 60 + 0) (10 * 60 + 0) 30).map spec12h ∧
      (specTimes (9 * 60 + 0) (10 * 60 + 0) 30).Pairwise (· < ·) ∧
      (l.map (fun s => s.time)).Nodup :=
  c6_ascending_no_duplicates mondayResolve sampleSchedule [] "2025-01-06" sampleDay
    9 0 10 0 30 (by decide) (by decide) (by decide) (by decide) (by decide)
    (by decide) (by decide) (by decide) (by decide)

/-- C8: slot generation is a pure, deterministic function of its inputs:
two invocations on equal inputs yield equal outputs, and in this
functional embedding no invocation mutates the appointment list or the
template (the source loop only writes a local array). -/
theorem c8_deterministic (r1 r2 : String → String) (s1 s2 : Schedule)
    (a1 a2 : List Appointment) (d1 d2 : String)
    (hr : r1 = r2) (hs : s1 = s2) (ha : a1 = a2) (hd : d1 = d2) :
    generateTimeSlots r1 s1 a1 d1 = generateTimeSlots r2 s2 a2 d2 := by
  subst hr
  subst hs
  subst ha
  subst hd
  rfl

/-- Witness for C8 at a concrete input. -/
theorem c8_deterministic_witness :
    generateTimeSlots mondayResolve sampleSchedule [apptA] "2025-01-06" =
      generateTimeSlots mondayResolve sampleSchedule [apptA] "2025-01-06" :=
  c8_deterministic mondayResolve mondayResolve sampleSchedule sampleSchedule
    [apptA] [apptA] "2025-01-06" "2025-01-06" rfl rfl rfl rfl

/-- With the negative duration -15 and the 09:00 to 17:00 bounds, the loop
guard holds at every iteration: the hour counter never moves and the
minute counter only decreases, so no amount of fuel completes the loop. -/
lemma slotStates_neg15_diverges :
    ∀ (fuel : Nat) (m : Int), m < 60 → slotStates 17 0 (-15) fuel 9 m = none := by
  intro fuel
  induction fuel with
  | zero =>
    intro m hm
    rw [slotStates]
    have hg : slotGuard 17 0 9 m = true := by simp [slotGuard]
    simp [hg]
  | succ fuel ih =>
    intro m hm
    rw [slotStates]
    have hg : slotGuard 17 0 9 m = true := by simp [slotGuard]
    have hstep : slotStep (-15) 9 m = (9, m - 15) := by
      simp only [slotStep]
      rw [if_neg (by omega)]
      exact congrArg (Prod.mk 9) (by ring)
    rw [hg]
    simp only [if_true, hstep]
    rw [ih (m - 15) (by omega)]
    rfl

/-- On the zero-duration all-default schedule the engine produces the 16
half-hour slots from 09:00 to 17:00. -/
lemma zeroDur_len :
    Option.map List.length (generateTimeSlots mondayResolve zeroDurSchedule [] "2025-01-06") =
      some 16 := by decide

/-- The zero-duration schedule does not diverge. -/
lemma zeroDur_ne_none :
    generateTimeSlots mondayResolve zeroDurSchedule [] "2025-01-06" ≠ none := by
  intro h
  have hlen := zeroDur_len
  rw [h] at hlen
  exact Option.noConfusion hlen

/-- C4 (code bug): the source does not reject a non-positive slot duration.
A zero duration is silently replaced by the default 30 and slots are
generated, and a negative duration makes the generation loop run forever
(no fuel completes it; generateTimeSlots yields the none that models
non-termination), instead of a configuration error in both cases. -/
theorem c4_nonpositive_duration_not_rejected :
    (∀ fuel : Nat, slotStates 17 0 (-15) fuel 9 0 = none) ∧
    generateTimeSlots mondayResolve negSchedule [] "2025-01-06" = none ∧
    effDuration (some (-15)) = -15 ∧
    effDuration (some 0) = 30 ∧
    generateTimeSlots mondayResolve zeroDurSchedule [] "2025-01-06" ≠ none ∧
    Option.map List.length (generateTimeSlots mondayResolve zeroDurSchedule [] "2025-01-06") =
      some 16 := by
  refine ⟨fun fuel => slotStates_neg15_diverges fuel 0 (by norm_num), ?_, rfl, rfl,
    zeroDur_ne_none, zeroDur_len⟩
  rw [generateTimeSlots_unfold mondayResolve negSchedule [] "2025-01-06" fullDay
    9 0 17 0 rfl rfl (by decide) (by decide)]
  have h2 : slotStates 17 0 (effDuration negSchedule.slotDuration) (17 * 60 + 0 + 100)
      ((9 : Nat) : Int) ((0 : Nat) : Int) = none :=
    slotStates_neg15_diverges _ _ (by norm_num)
  rw [h2]
  rfl

/-- C9: for every enabled day with a missing or empty start or end, slot
generation substitutes the defaults 09:00 and 17:00, and a missing or zero
slot duration is replaced by 30 minutes, after which slots are generated
(16 of them for the all-default schedule) rather than an error being
reported. -/
theorem c9_fallback_defaults :
    (∀ ds : DaySetting, ds.start = none → effStart ds = "09:00") ∧
    (∀ ds : DaySetting, ds.start = some "" → effStart ds = "09:00") ∧
    (∀ ds : DaySetting, ds.stop = none → effEnd ds = "17:00") ∧
    (∀ ds : DaySetting, ds.stop = some "" → effEnd ds = "17:00") ∧
    effDuration none = 30 ∧
    effDuration (some 0) = 30 ∧
    Option.map List.length (generateTimeSlots mondayResolve zeroDurSchedule [] "2025-01-06") =
      some 16 ∧
    generateTimeSlots mondayResolve zeroDurSchedule [] "2025-01-06" ≠ none := by
  refine ⟨?_, ?_, ?_, ?_, rfl, rfl, zeroDur_len, zeroDur_ne_none⟩
  · intro ds h
    simp [effStart, h]
  · intro ds h
    simp [effStart, h]
  · intro ds h
    simp [effEnd, h]
  · intro ds h
    simp [effEnd, h]

/-- Witness for C9 at a day with absent start and end. -/
theorem c9_fallback_defaults_witness :
    effStart { enabled := true, start := none, stop := none } = "09:00" ∧
    effEnd { enabled := true, start := none, stop := none } = "17:00" ∧
    effStart { enabled := true, start := some "", stop := some "" } = "09:00" ∧
    effEnd { enabled := true, start := some "", stop := some "" } = "17:00" :=
  ⟨c9_fallback_defaults.1 _ rfl,
   c9_fallback_defaults.2.2.1 _ rfl,
   c9_fallback_defaults.2.1 _ rfl,
   c9_fallback_defaults.2.2.2.1 _ rfl⟩

/-- C10: an occupied slot whose first matching appointment (in input list
order) has an empty or missing patient name carries the literal occupant
name Patient, is still unavailable and still carries the appointment id;
in general the first appointment of the input list matching the queried
date and slot time supplies the occupant name and id. -/
theorem c10_first_match_occupant (appts : List Appointment) (date : String)
    (h m : Int) (l1 l2 : List Appointment) (a : Appointment)
    (hsplit : appts = l1 ++ a :: l2)
    (hdate : a.date = date)
    (htime : normalizeApptTime a.time = time24Str h m)
    (hfirst : ∀ b ∈ l1, ¬(b.date = date ∧ normalizeApptTime b.time = time24Str h m)) :
    mkSlot appts date h m =
      { time := formatTime h m, available := false,
        patientName := some (if a.patientName = "" then "Patient" else a.patientName),
        appointmentId := some a.id } := by
  subst hsplit
  have hf := find?_filter_first (fun x => x.date == date)
    (fun x => normalizeApptTime x.time == time24Str h m) l1 l2 a
    (by simp [hdate]) (by simp [htime])
    (by
      intro b hb
      simpa using hfirst b hb)
  simp only [mkSlot, hf]

/-- Witness for C10: among three appointments of the queried date, the slot
09:30 is occupied by the first matching one, whose empty patient name is
rendered as Patient while its id a1 is kept; the later match c1 is
ignored. -/
theorem c10_first_match_occupant_witness :
    normalizeApptTime apptA.time = time24Str 9 30 ∧
    (¬(apptB.date = "2025-01-06" ∧ normalizeApptTime apptB.time = time24Str 9 30)) ∧
    mkSlot [apptB, apptA, apptC] "2025-01-06" 9 30 =
      { time := formatTime 9 30, available := false,
        patientName := some (if apptA.patientName = "" then "Patient" else apptA.patientName),
        appointmentId := some apptA.id } :=
  ⟨by decide, by decide,
   c10_first_match_occupant [apptB, apptA, apptC] "2025-01-06" 9 30
     [apptB] [apptC] apptA rfl (by decide) (by decide)
     (by
       intro b hb
       simp only [List.mem_singleton] at hb
       subst hb
       decide)⟩

/-- Appointments differing only in the format of the same time produce the
same slot: 14:00 in 24-hour form and 2:00 PM in 12-hour form normalize to
the same 24-hour key, and the slot only uses the appointment through its
date, its normalized time, its patient name and its id. -/
lemma mkSlot_format_insensitive (date adate nm aid : String) (h m : Int) :
    mkSlot [{ date := adate, time := "14:00", patientName := nm, id := aid }] date h m =
      mkSlot [{ date := adate, time := "2:00 PM", patientName := nm, id := aid }] date h m := by
  have hn1 : normalizeApptTime "14:00" = "14:00" := by decide
  have hn2 : normalizeApptTime "2:00 PM" = "14:00" := by decide
  simp only [mkSlot, List.filter_cons, List.filter_nil]
  by_cases hd : adate = date
  · simp only [hd]
    simp only [beq_self_eq_true, if_true, List.find?_cons, List.find?_nil, hn1, hn2]
    cases hmatch : ("14:00" == time24Str h m) <;> simp
  · have hne : (adate == date) = false := by simp [hd]
    simp only [hne, Bool.false_eq_true, if_false]

/-- C2: a generated slot is unavailable exactly when some appointment of
the queried date has a time that, after the engine's 24-hour
normalization, equals the slot's 24-hour start time (exact match, no
tolerance); the first such appointment supplies the slot's patient name
and id; and an appointment stored as 14:00 produces output identical to
the same appointment stored as 2:00 PM. -/
theorem c2_occupancy_exact_match :
    (∀ (appts : List Appointment) (date : String) (h m : Int),
        ((mkSlot appts date h m).available = false ↔
          ∃ a ∈ appts, a.date = date ∧ normalizeApptTime a.time = time24Str h m)) ∧
    (∀ (appts : List Appointment) (date : String) (h m : Int) (a : Appointment),
        (appts.filter (fun x => x.date == date)).find?
            (fun x => normalizeApptTime x.time == time24Str h m) = some a →
          mkSlot appts date h m =
            { time := formatTime h m, available := false,
              patientName := some (if a.patientName = "" then "Patient" else a.patientName),
              appointmentId := some a.id }) ∧
    (∀ (resolve : String → String) (sched : Schedule) (date adate nm aid : String),
        generateTimeSlots resolve sched
            [{ date := adate, time := "14:00", patientName := nm, id := aid }] date =
          generateTimeSlots resolve sched
            [{ date := adate, time := "2:00 PM", patientName := nm, id := aid }] date) := by
  refine ⟨?_, ?_, ?_⟩
  · intro appts date h m
    rw [mkSlot_available]
    simp only [List.find?_isSome, List.mem_filter, beq_iff_eq]
    constructor
    · rintro ⟨a, ⟨ha, hd⟩, ht⟩
      exact ⟨a, ha, hd, ht⟩
    · rintro ⟨a, ha, hd, ht⟩
      exact ⟨a, ⟨ha, hd⟩, ht⟩
  · intro appts date h m a hf
    simp only [mkSlot, hf]
  · intro resolve sched date adate nm aid
    simp only [generateTimeSlots]
    cases hw : sched.weeklySchedule (resolve date) with
    | none => rfl
    | some ds =>
      by_cases hen : ds.enabled = true
      · simp only [hen, if_true]
        cases hps : parseHM (effStart ds) with
        | none => rfl
        | some p1 =>
          cases hpe : parseHM (effEnd ds) with
          | none =>
            cases p1
            rfl
          | some p2 =>
            cases p1
            cases p2
            have hfun : (fun p : Int × Int =>
                mkSlot [{ date := adate, time := "14:00", patientName := nm, id := aid }]
                  date p.1 p.2) =
                (fun p : Int × Int =>
                  mkSlot [{ date := adate, time := "2:00 PM", patientName := nm, id := aid }]
                    date p.1 p.2) :=
              funext fun p => mkSlot_format_insensitive date adate nm aid p.1 p.2
            simp only [hfun]
      · simp [hen]

/-- Witness for C2 at concrete inputs: the 09:30 slot is unavailable with
apptA present, available with only the non-matching apptB, and the
14:00 versus 2:00 PM storage forms coincide on the sample schedule. -/
theorem c2_occupancy_exact_match_witness :
    ((mkSlot [apptA] "2025-01-06" 9 30).available = false ↔
      ∃ a ∈ [apptA], a.date = "2025-01-06" ∧
        normalizeApptTime a.time = time24Str 9 30) ∧
    generateTimeSlots mondayResolve sampleSchedule
        [{ date := "2025-01-06", time := "14:00", patientName := "Bob", id := "b1" }]
        "2025-01-06" =
      generateTimeSlots mondayResolve sampleSchedule
        [{ date := "2025-01-06", time := "2:00 PM", patientName := "Bob", id := "b1" }]
        "2025-01-06" ∧
    mkSlot [apptA] "2025-01-06" 9 30 =
      { time := formatTime 9 30, available := false,
        patientName := some "Patient", appointmentId := some "a1" } :=
  ⟨c2_occupancy_exact_match.1 [apptA] "2025-01-06" 9 30,
   c2_occupancy_exact_match.2.2 mondayResolve sampleSchedule "2025-01-06" "2025-01-06"
     "Bob" "b1",
   c2_occupancy_exact_match.2.1 [apptA] "2025-01-06" 9 30 apptA (by decide)⟩

/-- C3 counterexample: the string 2:00 pm carries a lowercase PM marker, and
the 12-hour parser itself accepts it (the regex has the case-insensitive
flag), yet the appointment normalization leaves the string untouched
because the routing check uses the case-sensitive String.includes with the
uppercase needles AM and PM; so a string containing am or pm in lowercase
is not parsed as 12-hour time, contradicting the claim's any-letter-case
rule. -/
theorem c3_counterexample :
    strIncludes "2:00 pm" "AM" = false ∧
    strIncludes "2:00 pm" "PM" = false ∧
    parseTime12to24 "2:00 pm" = "14:00" ∧
    normalizeApptTime "2:00 pm" = "2:00 pm" ∧
    "2:00 pm" ≠ "14:00" := by decide

/-- C3 as amended: an appointment time string is parsed as 12-hour time
exactly when it contains the uppercase substring AM or PM (the containment
check is case-sensitive, although the 12-hour pattern itself accepts the
marker in any case); such strings are converted by the rule 12 AM to 00,
AM hours otherwise unchanged, 12 PM unchanged, other PM hours plus 12,
with the matched minute digits kept verbatim; strings without an uppercase
marker are used as-is; and a string with an uppercase marker that the
12-hour pattern does not match normalizes to 00:00 rather than raising an
error. -/
theorem c3_normalization_rules :
    (∀ t : String, (strIncludes t "AM" || strIncludes t "PM") = false →
      normalizeApptTime t = t) ∧
    (∀ t : String, (strIncludes t "AM" || strIncludes t "PM") = true →
      normalizeApptTime t = parseTime12to24 t) ∧
    (∀ t : String, findTimeMatch t.data = none → parseTime12to24 t = "00:00") ∧
    (∀ (t : String) (h : Nat) (mins : String),
      findTimeMatch t.data = some (h, mins, "AM") →
        parseTime12to24 t =
          padStart2 (toString (if h = 12 then 0 else h)) ++ ":" ++ mins) ∧
    (∀ (t : String) (h : Nat) (mins : String),
      findTimeMatch t.data = some (h, mins, "PM") →
        parseTime12to24 t =
          padStart2 (toString (if h = 12 then 12 else h + 12)) ++ ":" ++ mins) := by
  refine ⟨?_, ?_, ?_, ?_, ?_⟩
  · intro t ht
    simp [normalizeApptTime, ht]
  · intro t ht
    simp [normalizeApptTime, ht]
  · intro t ht
    simp [parseTime12to24, ht]
  · intro t h mins hm
    simp only [parseTime12to24, hm]
    by_cases h12 : h = 12 <;> simp [h12]
  · intro t h mins hm
    simp only [parseTime12to24, hm]
    by_cases h12 : h = 12 <;> simp [h12]

/-- Witness for C3 as amended, at concrete strings of each kind. -/
theorem c3_normalization_rules_witness :
    normalizeApptTime "14:00" = "14:00" ∧
    normalizeApptTime "02:30 PM" = parseTime12to24 "02:30 PM" ∧
    parseTime12to24 "late PM" = "00:00" ∧
    parseTime12to24 "12:05 AM" =
      padStart2 (toString (if 12 = 12 then 0 else 12)) ++ ":" ++ "05" ∧
    parseTime12to24 "2:00 PM" =
      padStart2 (toString (if 2 = 12 then 12 else 2 + 12)) ++ ":" ++ "00" :=
  ⟨c3_normalization_rules.1 "14:00" (by decide),
   c3_normalization_rules.2.1 "02:30 PM" (by decide),
   c3_normalization_rules.2.2.1 "late PM" (by decide),
   c3_normalization_rules.2.2.2.1 "12:05 AM" 12 "05" (by decide),
   c3_normalization_rules.2.2.2.2 "2:00 PM" 2 "00" (by decide)⟩

/-- C7: while a pending profile update exists, every submit attempt is
rejected before the network call (the request flag is false), the state
only gains the warning message; and the pending flag can only be cleared
by the arrival of an externally fetched pending-update record (the channel
through which the admin approve or reject decisions reach the client),
never by a submit. -/
theorem c7_pending_update_gate :
    (∀ (s : PageState) (f : ProfileData) (o : SubmitOutcome) (n : String),
        s.pendingUpdate.hasPendingUpdate = true →
          handleSubmit s f o n = ({ s with message := some pendingWarning }, false)) ∧
    pendingWarning.type = MsgType.warning ∧
    (∀ (s : PageState) (e : PageEvent),
        s.pendingUpdate.hasPendingUpdate = true →
          (pageStep s e).1.pendingUpdate.hasPendingUpdate = false →
            ∃ p, e = PageEvent.pendingFetched p ∧ p.hasPendingUpdate = false) := by
  refine ⟨?_, rfl, ?_⟩
  · intro s f o n hp
    simp [handleSubmit, hp]
  · intro s e hp hcleared
    cases e with
    | submit f o n =>
      exfalso
      simp only [pageStep, handleSubmit, hp, if_true] at hcleared
      exact Bool.noConfusion hcleared
    | pendingFetched p =>
      refine ⟨p, rfl, ?_⟩
      simpa [pageStep] using hcleared

/-- Witness for C7 at a concrete pending state. -/
theorem c7_pending_update_gate_witness :
    pendingState.pendingUpdate.hasPendingUpdate = true ∧
    handleSubmit pendingState emptyProfile SubmitOutcome.ok "2025-01-06T00:00:00Z" =
      ({ pendingState with message := some pendingWarning }, false) :=
  ⟨rfl,
   c7_pending_update_gate.1 pendingState emptyProfile SubmitOutcome.ok
     "2025-01-06T00:00:00Z" rfl⟩

end MediExp
